import Mathlib

/-!
Verification of the performance analysis engine of
`src/helpers/performance-monitor.ts` (playwright-har-reporter).

The embedding models JavaScript strings as `List Char` (`Str`), JS numbers as
`ℚ` for times and `ℤ` for statuses and byte sizes, and JS `undefined` as
`Option`.  The WHATWG `URL` parser used for endpoint keying is an external
collaborator of the engine and is passed in as a function parameter
`pu : Str → Option Str` returning the pathname of a parseable URL and `none`
when the `URL` constructor would throw.
-/

/-- JS string model. -/
abbrev Str := List Char

/-- ASCII lower-casing of one character, used to model the `i` flag of the
URL-extension regexes. -/
def asciiLower (c : Char) : Char :=
  if 'A' ≤ c && c ≤ 'Z' then Char.ofNat (c.toNat + 32) else c

/-- Lower-case a JS string. -/
def lowerStr (s : Str) : Str := s.map asciiLower

/-- `leadsWith sub s` : `sub` is a prefix of `s` (models `String.startsWith`). -/
def leadsWith : Str → Str → Bool
  | [], _ => true
  | _ :: _, [] => false
  | a :: as, b :: bs => a == b && leadsWith as bs

/-- `containsSeq sub s` models `s.includes(sub)` of JS. -/
def containsSeq (sub : Str) : Str → Bool
  | [] => sub.isEmpty
  | c :: cs => leadsWith sub (c :: cs) || containsSeq sub cs

/-- `endsWithSeq sub s` models a `$`-anchored regex match of `sub` in `s`. -/
def endsWithSeq (sub s : Str) : Bool := leadsWith sub.reverse s.reverse

/-- Models `url.match(/\.(e₁|…|eₙ)$/i) !== null`: the lower-cased URL ends with
a dot followed by one of the extensions. -/
def extMatch (url : Str) (exts : List Str) : Bool :=
  exts.any (fun e => endsWithSeq ('.' :: e) (lowerStr url))

/-! ## HAR entry data model (`log.entries` elements, every field may be absent) -/

/-- `entry.response.content`. -/
structure HarContent where
  mimeType : Option Str
deriving DecidableEq

/-- `entry.response`. -/
structure HarResponse where
  status : Option ℤ
  statusText : Option Str
  bodySize : Option ℤ
  content : Option HarContent
deriving DecidableEq

/-- `entry.request`. -/
structure HarRequest where
  method : Option Str
  url : Option Str
deriving DecidableEq

/-- One raw trace entry. -/
structure HarEntry where
  request : Option HarRequest
  response : Option HarResponse
  time : Option ℚ
deriving DecidableEq

/-- `entry.request?.url || ''`. -/
def urlOf (e : HarEntry) : Str := (e.request.bind HarRequest.url).getD []

/-- `entry.request?.method || ''`. -/
def methodOf (e : HarEntry) : Str := (e.request.bind HarRequest.method).getD []

/-- `entry.response?.content?.mimeType || ''`. -/
def mimeOf (e : HarEntry) : Str :=
  ((e.response.bind HarResponse.content).bind HarContent.mimeType).getD []

/-- `entry.time || 0`. -/
def timeOf (e : HarEntry) : ℚ := e.time.getD 0

/-- `entry.response?.bodySize || 0`. -/
def bodySizeOf (e : HarEntry) : ℤ := (e.response.bind HarResponse.bodySize).getD 0

/-- `entry.response?.status || 0`. -/
def statusOf (e : HarEntry) : ℤ := (e.response.bind HarResponse.status).getD 0

/-- `entry.response?.statusText || ''`. -/
def statusTextOf (e : HarEntry) : Str :=
  (e.response.bind HarResponse.statusText).getD []

/-- `entry.response?.status >= 400` (false when the field is absent, as the JS
comparison with `undefined` is). -/
def isFailed (e : HarEntry) : Bool :=
  match e.response.bind HarResponse.status with
  | some s => decide (400 ≤ s)
  | none => false

/-! ## Statistics engine -/

/-- `calculateMedian` of the source: sort ascending, middle element for odd
length, mean of the two middle elements for even length, 0 for `[]`. -/
def calculateMedian (values : List ℚ) : ℚ :=
  if values.length = 0 then 0
  else
    let sorted := List.insertionSort (· ≤ ·) values
    let mid := sorted.length / 2
    if sorted.length % 2 ≠ 0 then sorted.getD mid 0
    else (sorted.getD (mid - 1) 0 + sorted.getD mid 0) / 2

/-- `calculatePercentile` of the source: sort ascending, take the element at
`⌈p/100·n⌉ - 1` (clamped below at 0). -/
def calculatePercentile (values : List ℚ) (percentile : ℚ) : ℚ :=
  if values.length = 0 then 0
  else
    let sorted := List.insertionSort (· ≤ ·) values
    let index : ℤ := ⌈percentile / 100 * (sorted.length : ℚ)⌉ - 1
    sorted.getD (max 0 index).toNat 0

/-- The `summary` object of a report. -/
structure Summary where
  totalRequests : ℕ
  totalTime : ℚ
  totalSize : ℤ
  failedRequests : ℕ
  averageResponseTime : ℚ
  medianResponseTime : ℚ
  percentile95 : ℚ
  percentile99 : ℚ
deriving DecidableEq

/-- The all-zero summary returned for an absent entry list. -/
def zeroSummary : Summary := ⟨0, 0, 0, 0, 0, 0, 0, 0⟩

/-- `calculateSummary` of the source. -/
def calculateSummary (entries : List HarEntry) : Summary :=
  if entries.length = 0 then zeroSummary
  else
    let times := entries.map timeOf
    let totalTime := times.foldl (· + ·) 0
    { totalRequests := entries.length
      totalTime := totalTime
      totalSize := entries.foldl (fun sum e => sum + bodySizeOf e) 0
      failedRequests := (entries.filter isFailed).length
      averageResponseTime :=
        if entries.length > 0 then totalTime / (entries.length : ℚ) else 0
      medianResponseTime := calculateMedian times
      percentile95 := calculatePercentile times 95
      percentile99 := calculatePercentile times 99 }

/-! ## Request categorizer -/

/-- The closed set of request categories. -/
inductive Category
  | api | javascript | css | images | fonts | html | other
deriving DecidableEq

/-- One value of the `categories` record of `categorizeRequests`. -/
structure RequestTypeMetrics where
  count : ℕ
  totalTime : ℚ
  totalSize : ℤ
  averageTime : Option ℚ
deriving DecidableEq

/-- `{ count: 0, totalTime: 0, totalSize: 0 }` (no `averageTime` yet). -/
def emptyTypeMetrics : RequestTypeMetrics := ⟨0, 0, 0, none⟩

/-- The fixed-key `categories` record. -/
structure RequestTypes where
  api : RequestTypeMetrics
  javascript : RequestTypeMetrics
  css : RequestTypeMetrics
  images : RequestTypeMetrics
  fonts : RequestTypeMetrics
  html : RequestTypeMetrics
  other : RequestTypeMetrics
deriving DecidableEq

/-- The record of seven zero-initialised categories. -/
def initTypes : RequestTypes :=
  ⟨emptyTypeMetrics, emptyTypeMetrics, emptyTypeMetrics, emptyTypeMetrics,
   emptyTypeMetrics, emptyTypeMetrics, emptyTypeMetrics⟩

/-- The first-match categorization cascade of `categorizeRequests`. -/
def categoryOf (e : HarEntry) : Category :=
  let url := urlOf e
  let mimeType := mimeOf e
  if containsSeq "/api/".toList url || containsSeq "graphql".toList url ||
      containsSeq "/rest/".toList url || containsSeq "json".toList mimeType then
    .api
  else if extMatch url ["js".toList, "mjs".toList, "jsx".toList, "ts".toList,
      "tsx".toList] || containsSeq "javascript".toList mimeType then
    .javascript
  else if extMatch url ["css".toList, "scss".toList, "sass".toList,
      "less".toList] || containsSeq "css".toList mimeType then
    .css
  else if extMatch url ["png".toList, "jpg".toList, "jpeg".toList, "gif".toList,
      "svg".toList, "webp".toList, "ico".toList, "bmp".toList] ||
      containsSeq "image".toList mimeType then
    .images
  else if extMatch url ["woff".toList, "woff2".toList, "ttf".toList,
      "eot".toList, "otf".toList] || containsSeq "font".toList mimeType then
    .fonts
  else if extMatch url ["html".toList, "htm".toList] ||
      containsSeq "html".toList mimeType then
    .html
  else
    .other

/-- `categories[category].count++; … totalTime += entry.time || 0;
… totalSize += entry.response?.bodySize || 0`. -/
def bumpMetrics (m : RequestTypeMetrics) (e : HarEntry) : RequestTypeMetrics :=
  { m with count := m.count + 1, totalTime := m.totalTime + timeOf e,
           totalSize := m.totalSize + bodySizeOf e }

/-- Process one entry of the `entries.forEach` loop of `categorizeRequests`. -/
def addEntry (c : RequestTypes) (e : HarEntry) : RequestTypes :=
  match categoryOf e with
  | .api => { c with api := bumpMetrics c.api e }
  | .javascript => { c with javascript := bumpMetrics c.javascript e }
  | .css => { c with css := bumpMetrics c.css e }
  | .images => { c with images := bumpMetrics c.images e }
  | .fonts => { c with fonts := bumpMetrics c.fonts e }
  | .html => { c with html := bumpMetrics c.html e }
  | .other => { c with other := bumpMetrics c.other e }

/-- The final averages pass: `averageTime = totalTime / count` when
`count > 0`. -/
def setAverage (m : RequestTypeMetrics) : RequestTypeMetrics :=
  if m.count > 0 then { m with averageTime := some (m.totalTime / (m.count : ℚ)) }
  else m

/-- `categorizeRequests` of the source. -/
def categorizeRequests (entries : List HarEntry) : RequestTypes :=
  if entries.length = 0 then initTypes
  else
    let c := entries.foldl addEntry initTypes
    ⟨setAverage c.api, setAverage c.javascript, setAverage c.css,
     setAverage c.images, setAverage c.fonts, setAverage c.html,
     setAverage c.other⟩

/-- Sum of the seven per-category counts. -/
def sumCounts (c : RequestTypes) : ℕ :=
  c.api.count + c.javascript.count + c.css.count + c.images.count +
    c.fonts.count + c.html.count + c.other.count

/-! ## Ranking extractors -/

/-- Element of `performance.slowestRequests`. -/
structure RequestInfo where
  url : Str
  method : Str
  time : ℚ
  status : ℤ
deriving DecidableEq

/-- Element of `performance.failedRequests`. -/
structure FailedRequestInfo where
  url : Str
  method : Str
  status : ℤ
  statusText : Str
  time : ℚ
deriving DecidableEq

/-- Element of `performance.largestRequests`. -/
structure LargeRequestInfo where
  url : Str
  size : ℤ
  time : ℚ
deriving DecidableEq

/-- Comparator `(a, b) => (b.time || 0) - (a.time || 0)`: descending time. -/
def timeGE (a b : HarEntry) : Prop := timeOf b ≤ timeOf a

instance : DecidableRel timeGE :=
  fun a b => inferInstanceAs (Decidable (timeOf b ≤ timeOf a))

instance : IsTotal HarEntry timeGE := ⟨fun a b => le_total (timeOf b) (timeOf a)⟩

instance : IsTrans HarEntry timeGE :=
  ⟨fun _ _ _ h h' => le_trans h' h⟩

/-- Comparator `(a, b) => (b.response?.bodySize || 0) - (a.response?.bodySize
|| 0)`: descending body size. -/
def sizeGE (a b : HarEntry) : Prop := bodySizeOf b ≤ bodySizeOf a

instance : DecidableRel sizeGE :=
  fun a b => inferInstanceAs (Decidable (bodySizeOf b ≤ bodySizeOf a))

instance : IsTotal HarEntry sizeGE :=
  ⟨fun a b => le_total (bodySizeOf b) (bodySizeOf a)⟩

instance : IsTrans HarEntry sizeGE :=
  ⟨fun _ _ _ h h' => le_trans h' h⟩

/-- `getSlowRequests` of the source. -/
def getSlowRequests (entries : List HarEntry) (limit : ℕ) : List RequestInfo :=
  if entries.length = 0 then []
  else
    ((List.insertionSort timeGE
        (entries.filter (fun e => e.request.isSome && e.response.isSome))).take
          limit).map
      (fun e => ⟨urlOf e, methodOf e, timeOf e, statusOf e⟩)

/-- `getFailedRequests` of the source. -/
def getFailedRequests (entries : List HarEntry) : List FailedRequestInfo :=
  if entries.length = 0 then []
  else
    (entries.filter isFailed).map
      (fun e => ⟨urlOf e, methodOf e, statusOf e, statusTextOf e, timeOf e⟩)

/-- JS truthiness of `e.response?.bodySize`, the filter of
`getLargestRequests`. -/
def bodyTruthy (e : HarEntry) : Bool :=
  match e.response.bind HarResponse.bodySize with
  | some n => n != 0
  | none => false

/-- `getLargestRequests` of the source. -/
def getLargestRequests (entries : List HarEntry) (limit : ℕ) :
    List LargeRequestInfo :=
  if entries.length = 0 then []
  else
    ((List.insertionSort sizeGE (entries.filter bodyTruthy)).take limit).map
      (fun e => ⟨urlOf e, bodySizeOf e, timeOf e⟩)

/-! ## Endpoint metrics aggregator (`getApiMetrics`) -/

/-- One value of the `endpoints` record.  `minTime = none` models the
`Infinity` initializer (unreached until the first sample). -/
structure EndpointMetrics where
  count : ℕ
  totalTime : ℚ
  averageTime : ℚ
  minTime : Option ℚ
  maxTime : ℚ
deriving DecidableEq

/-- `{ count: 0, totalTime: 0, averageTime: 0, minTime: Infinity,
maxTime: 0 }`. -/
def emptyEndpoint : EndpointMetrics := ⟨0, 0, 0, none, 0⟩

/-- The `apiMetrics` section of a report.  The endpoint record is modelled as
a partial map from key strings. -/
structure ApiMetrics where
  totalCalls : ℕ
  endpoints : Str → Option EndpointMetrics

/-- The API-call predicate of `getApiMetrics`: categorization rule 1 plus the
`/SXMain/` and `/moduleservices/` path-prefix allowlist. -/
def isApiCall (e : HarEntry) : Bool :=
  let url := urlOf e
  let mimeType := mimeOf e
  containsSeq "/api/".toList url || containsSeq "graphql".toList url ||
    containsSeq "/rest/".toList url || containsSeq "/SXMain/".toList url ||
    containsSeq "/moduleservices/".toList url ||
    containsSeq "json".toList mimeType

/-- `` `${call.request.method} ${new URL(call.request.url).pathname}` ``:
`none` when the URL cannot be parsed (the `try` block throws and the entry is
skipped).  A missing `request` or `url` also throws inside the `try`. -/
def endpointKey (pu : Str → Option Str) (e : HarEntry) : Option Str :=
  match e.request with
  | none => none
  | some req =>
    match req.url with
    | none => none
    | some u =>
      match pu u with
      | none => none
      | some pathname =>
        some ((req.method.getD "undefined".toList) ++ ' ' :: pathname)

/-- One iteration of the `apiCalls.forEach` loop. -/
def addCall (pu : Str → Option Str) (m : Str → Option EndpointMetrics)
    (e : HarEntry) : Str → Option EndpointMetrics :=
  match endpointKey pu e with
  | none => m
  | some key =>
    let cur := (m key).getD emptyEndpoint
    let t := timeOf e
    fun k =>
      if k = key then
        some { count := cur.count + 1
               totalTime := cur.totalTime + t
               averageTime := cur.averageTime
               minTime := some (match cur.minTime with
                 | none => t
                 | some v => min v t)
               maxTime := max cur.maxTime t }
      else m k

/-- The final averages pass over the endpoint record. -/
def setEndpointAverages (m : Str → Option EndpointMetrics) :
    Str → Option EndpointMetrics :=
  fun k =>
    (m k).map fun em =>
      if em.count > 0 then { em with averageTime := em.totalTime / (em.count : ℚ) }
      else em

/-- `getApiMetrics` of the source, parameterised by the external URL parser
`pu`. -/
def getApiMetrics (pu : Str → Option Str) (entries : List HarEntry) :
    ApiMetrics :=
  if entries.length = 0 then ⟨0, fun _ => none⟩
  else
    let apiCalls := entries.filter isApiCall
    if apiCalls.length = 0 then ⟨0, fun _ => none⟩
    else
      ⟨apiCalls.length,
       setEndpointAverages (apiCalls.foldl (addCall pu) (fun _ => none))⟩

/-! ## Threshold evaluator -/

/-- The `PerformanceThresholds` configuration; every bound is optional. -/
structure PerformanceThresholds where
  maxAverageResponseTime : Option ℚ
  maxFailedRequests : Option ℚ
  maxTotalTime : Option ℚ
  maxRequestTime : Option ℚ
  maxPageLoadTime : Option ℚ
deriving DecidableEq

/-- One threshold violation. -/
structure ThresholdViolation where
  metric : Str
  threshold : ℚ
  actual : ℚ
  message : Str
deriving DecidableEq

/-- `checkThresholds` of the source.  The first guard is
`this.thresholds.maxAverageResponseTime && …` (JS truthiness: a configured 0
is falsy and skips the check); the second is
`this.thresholds.maxFailedRequests !== undefined && …`. -/
def checkThresholds (thresholds : Option PerformanceThresholds) (s : Summary) :
    List ThresholdViolation :=
  match thresholds with
  | none => []
  | some th =>
    let v1 : List ThresholdViolation :=
      match th.maxAverageResponseTime with
      | some m =>
        if m ≠ 0 ∧ s.averageResponseTime > m then
          [⟨"averageResponseTime".toList, m, s.averageResponseTime,
            "Average response time exceeded threshold".toList⟩]
        else []
      | none => []
    let v2 : List ThresholdViolation :=
      match th.maxFailedRequests with
      | some m =>
        if (s.failedRequests : ℚ) > m then
          [⟨"failedRequests".toList, m, (s.failedRequests : ℚ),
            "Failed requests exceeded threshold".toList⟩]
        else []
      | none => []
    v1 ++ v2

/-! ## Report generation -/

/-- The `performance` section of a report. -/
structure PerformanceSection where
  slowestRequests : List RequestInfo
  failedRequests : List FailedRequestInfo
  largestRequests : List LargeRequestInfo

/-- The analysis payload of a generated report (the engine's output fields;
file paths and wall-clock timestamps are external I/O concerns). -/
structure PerformanceReport where
  summary : Summary
  requestTypes : RequestTypes
  performance : PerformanceSection
  apiMetrics : ApiMetrics
  thresholdViolations : Option (List ThresholdViolation)

/-- `har.log` with an optional `entries` list. -/
structure HarLog where
  entries : Option (List HarEntry)
deriving DecidableEq

/-- A parsed HAR document. -/
structure HarData where
  log : Option HarLog
deriving DecidableEq

/-- Outcome of `JSON.parse` on the trace bytes: `invalidFormat` when parsing
throws. -/
inductive ParsedHar
  | invalidFormat : ParsedHar
  | ok : HarData → ParsedHar

/-- `generateReport` of the source, from the parse outcome onward: `null` when
parsing threw, `null` when `harData?.log?.entries || []` is empty, otherwise
the assembled report. -/
def generateReport (pu : Str → Option Str)
    (thresholds : Option PerformanceThresholds) (har : ParsedHar) :
    Option PerformanceReport :=
  match har with
  | .invalidFormat => none
  | .ok h =>
    let entries := (h.log.bind HarLog.entries).getD []
    if entries.length = 0 then none
    else
      let summary := calculateSummary entries
      some { summary := summary
             requestTypes := categorizeRequests entries
             performance :=
               ⟨getSlowRequests entries 10, getFailedRequests entries,
                getLargestRequests entries 5⟩
             apiMetrics := getApiMetrics pu entries
             thresholdViolations :=
               match thresholds with
               | some _ => some (checkThresholds thresholds summary)
               | none => none }

/-! ## Report aggregator (`ReportUtils.aggregateReports`) -/

/-- The fields of a previously produced report that aggregation reads; the
`summary` may be absent. -/
structure AReport where
  testName : Str
  testDuration : ℚ
  summary : Option Summary
deriving DecidableEq

/-- One element of the `individual` per-report rollup. -/
structure IndividualRollup where
  testName : Str
  duration : ℚ
  requests : ℕ
  avgTime : ℚ
  failures : ℕ
deriving DecidableEq

/-- The aggregate produced by `aggregateReports`. -/
structure AggregateReport where
  reportCount : ℕ
  totalRequests : ℕ
  totalTime : ℚ
  totalFailedRequests : ℕ
  averageResponseTime : ℚ
  failureRate : ℚ
  individual : List IndividualRollup
deriving DecidableEq

/-- Summary access on a filtered (hence `some`) report. -/
def summaryOrZero (r : AReport) : Summary := r.summary.getD zeroSummary

/-- Models `Number.prototype.toFixed(2)` on the (nonnegative) failure rate:
round half away from zero to two decimal places. -/
def toFixed2 (q : ℚ) : ℚ := (⌊q * 100 + 1 / 2⌋ : ℚ) / 100

/-- `ReportUtils.aggregateReports` of the source. -/
def aggregateReports (reports : List AReport) : Option AggregateReport :=
  let validReports := reports.filter (fun r => r.summary.isSome)
  if validReports.length = 0 then none
  else
    let totalRequests :=
      validReports.foldl (fun sum r => sum + (summaryOrZero r).totalRequests) 0
    let totalTime :=
      validReports.foldl (fun sum r => sum + (summaryOrZero r).totalTime) 0
    let totalFailedRequests :=
      validReports.foldl (fun sum r => sum + (summaryOrZero r).failedRequests) 0
    some
      { reportCount := validReports.length
        totalRequests := totalRequests
        totalTime := totalTime
        totalFailedRequests := totalFailedRequests
        averageResponseTime :=
          if totalRequests > 0 then totalTime / (totalRequests : ℚ) else 0
        failureRate :=
          if totalRequests > 0 then
            toFixed2 ((totalFailedRequests : ℚ) / (totalRequests : ℚ) * 100)
          else 0
        individual :=
          validReports.map fun r =>
            ⟨r.testName, r.testDuration, (summaryOrZero r).totalRequests,
             (summaryOrZero r).averageResponseTime,
             (summaryOrZero r).failedRequests⟩ }

/-! ## Shared helper lemmas -/

/-- Sorting with `insertionSort (· ≤ ·)` yields the unique ascending-sorted
permutation. -/
theorem insertionSort_eq_of_sorted (L S : List ℚ) (hperm : S.Perm L)
    (hsort : S.Sorted (· ≤ ·)) : List.insertionSort (· ≤ ·) L = S :=
  List.eq_of_perm_of_sorted ((List.perm_insertionSort _ L).trans hperm.symm)
    (List.sorted_insertionSort _ L) hsort

/-- Each categorized entry increments exactly one category count. -/
theorem sumCounts_addEntry (c : RequestTypes) (e : HarEntry) :
    sumCounts (addEntry c e) = sumCounts c + 1 := by
  cases h : categoryOf e <;> simp [addEntry, h, bumpMetrics, sumCounts] <;> omega

/-- The categorization fold adds the list length to the total count. -/
theorem sumCounts_foldl (l : List HarEntry) (c : RequestTypes) :
    sumCounts (l.foldl addEntry c) = sumCounts c + l.length := by
  induction l generalizing c with
  | nil => simp
  | cons e t ih =>
    rw [List.foldl_cons, ih, sumCounts_addEntry]
    simp only [List.length_cons]
    omega

/-- The averages pass does not change the count. -/
theorem setAverage_count (m : RequestTypeMetrics) :
    (setAverage m).count = m.count := by
  unfold setAverage; split <;> rfl

/-- `calculateSummary` reports the entry count as `totalRequests`. -/
theorem calculateSummary_totalRequests (entries : List HarEntry) :
    (calculateSummary entries).totalRequests = entries.length := by
  unfold calculateSummary
  split
  · next h => simp [zeroSummary, h]
  · rfl

/-- The seven category counts sum to the number of entries. -/
theorem categorizeRequests_sumCounts (entries : List HarEntry) :
    sumCounts (categorizeRequests entries) = entries.length := by
  unfold categorizeRequests
  split
  · next h => simpa [sumCounts, initTypes, emptyTypeMetrics] using h.symm
  · next h =>
    have hfold := sumCounts_foldl entries initTypes
    simp only [sumCounts, initTypes, emptyTypeMetrics] at hfold ⊢
    simpa [setAverage_count] using hfold

/-! ## C5 -/

/-- C5: for every trace, the sum of the seven `CategoryMetrics.count` values
equals `Summary.totalRequests`, which equals the number of entries in the
trace. -/
theorem sum_category_counts_eq_totalRequests (entries : List HarEntry) :
    sumCounts (categorizeRequests entries) =
      (calculateSummary entries).totalRequests ∧
    (calculateSummary entries).totalRequests = entries.length := by
  refine ⟨?_, calculateSummary_totalRequests entries⟩
  rw [categorizeRequests_sumCounts, calculateSummary_totalRequests]

/-! ## C4 -/

/-- C4: categorization is first-match over the fixed precedence; any record
whose URL contains `/api/` is categorized `api` — in particular never `css`,
even when its extension is `.css`. -/
theorem categoryOf_api_first (e : HarEntry)
    (h : containsSeq "/api/".toList (urlOf e) = true) :
    categoryOf e = Category.api ∧ categoryOf e ≠ Category.css := by
  have h2 := h
  simp only [String.toList] at h2
  have hapi : categoryOf e = Category.api := by
    unfold categoryOf
    simp [h2]
  exact ⟨hapi, by simp [hapi]⟩

/-- A record with both `/api/` in the URL and a `.css` extension. -/
def apiCssEntry : HarEntry :=
  ⟨some ⟨some "GET".toList, some "https://h.test/api/style.css".toList⟩,
   none, none⟩

/-- C4 witness: the `/api/`-and-`.css` record is categorized `api`, not
`css`. -/
theorem categoryOf_api_first_witness :
    (containsSeq "/api/".toList (urlOf apiCssEntry) = true ∧
      extMatch (urlOf apiCssEntry)
        ["css".toList, "scss".toList, "sass".toList, "less".toList] = true) ∧
    (categoryOf apiCssEntry = Category.api ∧
      categoryOf apiCssEntry ≠ Category.css) :=
  ⟨⟨by decide, by decide⟩, categoryOf_api_first apiCssEntry (by decide)⟩

/-! ## C1 -/

/-- The summary of the spec's three-entry scenario trace: 3 requests, one
failed, total time 600, average 200. -/
def scenarioSummary : Summary := ⟨3, 600, 0, 1, 200, 200, 300, 300⟩

/-- C1: `checkThresholds` evaluates only `maxAverageResponseTime` (skipped
when configured 0, by JS truthiness) and `maxFailedRequests`; a breached
`maxTotalTime` bound produces no violation, contradicting the claim that all
five bounds are evaluated, while the claim's `maxFailedRequests: 0` scenario
does hold. -/
theorem checkThresholds_only_two_bounds :
    (checkThresholds (some ⟨none, none, some 1, none, none⟩) scenarioSummary =
        [] ∧
      scenarioSummary.totalTime > 1) ∧
    (checkThresholds (some ⟨some 0, none, none, none, none⟩) scenarioSummary =
        [] ∧
      scenarioSummary.averageResponseTime > 0) ∧
    checkThresholds (some ⟨none, some 0, none, none, none⟩) scenarioSummary =
      [⟨"failedRequests".toList, 0, 1,
        "Failed requests exceeded threshold".toList⟩] := by
  refine ⟨⟨rfl, by norm_num [scenarioSummary]⟩,
    ⟨?_, by norm_num [scenarioSummary]⟩, ?_⟩
  · simp [checkThresholds, scenarioSummary]
  · simp [checkThresholds, scenarioSummary]

/-! ## C6 -/

/-- A HAR document that parses and holds an empty `log.entries` list. -/
def emptyHar : HarData := ⟨some ⟨some []⟩⟩

/-- A URL parser that rejects every URL (any parser works for these facts). -/
def puNone : Str → Option Str := fun _ => none

/-- C6 counterexample: the "nothing to analyze" result for an empty trace is
`null`, the very same value returned for unparsable trace bytes, so the two
outcomes are not distinguishable by the caller. -/
theorem emptyTrace_counterexample :
    generateReport puNone none (ParsedHar.ok emptyHar) = none ∧
    generateReport puNone none ParsedHar.invalidFormat = none ∧
    generateReport puNone none (ParsedHar.ok emptyHar) =
      generateReport puNone none ParsedHar.invalidFormat :=
  ⟨rfl, rfl, rfl⟩

/-- C6 amended: a trace that parses with zero entries yields `none` (never a
report with all-zero metrics), but that is the same `none` produced for
unparsable trace bytes. -/
theorem emptyTrace_returns_none (pu : Str → Option Str)
    (thresholds : Option PerformanceThresholds) (h : HarData)
    (he : (h.log.bind HarLog.entries).getD [] = []) :
    generateReport pu thresholds (ParsedHar.ok h) = none ∧
    generateReport pu thresholds ParsedHar.invalidFormat = none := by
  exact ⟨by simp [generateReport, he], rfl⟩

/-- C6 amended witness. -/
theorem emptyTrace_returns_none_witness :
    (emptyHar.log.bind HarLog.entries).getD [] = ([] : List HarEntry) ∧
    (generateReport puNone none (ParsedHar.ok emptyHar) = none ∧
      generateReport puNone none ParsedHar.invalidFormat = none) :=
  ⟨rfl, emptyTrace_returns_none puNone none emptyHar rfl⟩

/-! ## C2 and C3: order statistics -/

/-- The percentile index `⌈p/100·n⌉ − 1`, clamped below, stays within bounds
for `p ≤ 100`. -/
theorem percentile_index_lt (L : List ℚ) (p : ℚ) (hL : L ≠ [])
    (hp' : p ≤ 100) :
    (max 0 (⌈p / 100 * (L.length : ℚ)⌉ - 1)).toNat < L.length := by
  have hn : 0 < L.length := List.length_pos.2 hL
  have hle : ⌈p / 100 * (L.length : ℚ)⌉ ≤ (L.length : ℤ) := by
    rw [Int.ceil_le]
    push_cast
    have h1 : p / 100 ≤ 1 := (div_le_one (by norm_num)).2 hp'
    exact mul_le_of_le_one_left (Nat.cast_nonneg _) h1
  have hmax : max 0 (⌈p / 100 * (L.length : ℚ)⌉ - 1) < (L.length : ℤ) := by
    apply max_lt
    · exact_mod_cast hn
    · omega
  exact (Int.toNat_lt (le_max_left _ _)).2 hmax

/-- For `p ∈ (0,100]` and non-empty input, the percentile result is an
element of the input list. -/
theorem calculatePercentile_mem (L : List ℚ) (p : ℚ) (hL : L ≠ [])
    (hp' : p ≤ 100) : calculatePercentile L p ∈ L := by
  unfold calculatePercentile
  have hne : ¬L.length = 0 := by
    simpa using List.length_pos.2 hL |>.ne'
  rw [if_neg hne]
  have hlen : (List.insertionSort (· ≤ ·) L).length = L.length :=
    List.length_insertionSort _ L
  have hidx :
      (max 0 (⌈p / 100 * ((List.insertionSort (· ≤ ·) L).length : ℚ)⌉ -
        1)).toNat < (List.insertionSort (· ≤ ·) L).length := by
    rw [hlen]
    exact percentile_index_lt L p hL hp'
  rw [List.getD_eq_getElem _ _ hidx]
  exact (List.perm_insertionSort _ L).mem_iff.1 (List.getElem_mem hidx)

/-- C2: for `p ∈ (0,100]`, `calculatePercentile` returns the element of any
ascending-sorted permutation `S` of `L` at index `⌈p/100·|L|⌉ − 1` clamped to
`[0, |L|−1]`; for non-empty `L` the result is an element of `L`, at `p = 100`
it is the maximum of `L`, and the empty list yields 0. -/
theorem calculatePercentile_spec (L S : List ℚ) (p : ℚ) (hp : 0 < p)
    (hp' : p ≤ 100) (hperm : S.Perm L) (hsort : S.Sorted (· ≤ ·)) :
    calculatePercentile [] p = 0 ∧
    (L ≠ [] →
      calculatePercentile L p =
        S.getD (min (L.length - 1)
          (max 0 (⌈p / 100 * (L.length : ℚ)⌉ - 1)).toNat) 0 ∧
      calculatePercentile L p ∈ L) ∧
    (L ≠ [] →
      calculatePercentile L 100 ∈ L ∧ ∀ x ∈ L, x ≤ calculatePercentile L 100) := by
  have hSL : List.insertionSort (· ≤ ·) L = S :=
    insertionSort_eq_of_sorted L S hperm hsort
  have hlenS : S.length = L.length := hperm.length_eq
  refine ⟨rfl, fun hL => ⟨?_, calculatePercentile_mem L p hL hp'⟩,
    fun hL => ⟨calculatePercentile_mem L 100 hL le_rfl, ?_⟩⟩
  · have hne : ¬L.length = 0 := by
      simpa using List.length_pos.2 hL |>.ne'
    unfold calculatePercentile
    rw [if_neg hne, hSL]
    simp only [hlenS]
    have hidx := percentile_index_lt L p hL hp'
    rw [Nat.min_eq_right (by omega)]
  · intro x hx
    have hn : 0 < L.length := List.length_pos.2 hL
    have hne : ¬L.length = 0 := by omega
    unfold calculatePercentile
    rw [if_neg hne, hSL]
    simp only [hlenS]
    have hceil : ⌈(100 : ℚ) / 100 * (L.length : ℚ)⌉ = (L.length : ℤ) := by
      have : (100 : ℚ) / 100 * (L.length : ℚ) = (L.length : ℚ) := by norm_num
      rw [this]
      exact Int.ceil_natCast L.length
    have hidx : (max 0 (⌈(100 : ℚ) / 100 * (L.length : ℚ)⌉ - 1)).toNat =
        L.length - 1 := by
      rw [hceil, max_eq_right (by omega : (0 : ℤ) ≤ (L.length : ℤ) - 1)]
      omega
    rw [hidx]
    have hlast : L.length - 1 < S.length := by omega
    rw [List.getD_eq_getElem _ _ hlast]
    have hxS : x ∈ S := hperm.mem_iff.2 hx
    obtain ⟨i, hi, hgx⟩ := List.getElem_of_mem hxS
    have hrel := hsort.rel_get_of_le
      (a := (⟨i, hi⟩ : Fin S.length)) (b := ⟨L.length - 1, hlast⟩)
      (by simp only [Fin.mk_le_mk]; omega)
    simpa [List.get_eq_getElem, hgx] using hrel

/-- C3: `calculateMedian` returns, for any ascending-sorted permutation `S`
of `L`, the middle element for odd length, the mean of the two middle
elements for even length, and 0 for the empty list. -/
theorem calculateMedian_spec (L S : List ℚ) (hperm : S.Perm L)
    (hsort : S.Sorted (· ≤ ·)) :
    calculateMedian [] = 0 ∧
    (L.length % 2 = 1 → calculateMedian L = S.getD (L.length / 2) 0) ∧
    (L.length % 2 = 0 → L ≠ [] →
      calculateMedian L =
        (S.getD (L.length / 2 - 1) 0 + S.getD (L.length / 2) 0) / 2) := by
  have hSL : List.insertionSort (· ≤ ·) L = S :=
    insertionSort_eq_of_sorted L S hperm hsort
  have hlenS : S.length = L.length := hperm.length_eq
  refine ⟨rfl, fun hodd => ?_, fun heven hL => ?_⟩
  · have hne : ¬L.length = 0 := by omega
    unfold calculateMedian
    rw [if_neg hne, hSL]
    simp only [hlenS]
    rw [if_pos (by omega)]
  · have hne : ¬L.length = 0 := by
      simpa using List.length_pos.2 hL |>.ne'
    unfold calculateMedian
    rw [if_neg hne, hSL]
    simp only [hlenS]
    rw [if_neg (by omega)]

/-- C2 witness: the percentile facts at `L = [3,1,2]`, `S = [1,2,3]`,
`p = 95`. -/
theorem calculatePercentile_spec_witness :
    ((0 : ℚ) < 95 ∧ (95 : ℚ) ≤ 100 ∧ ([1, 2, 3] : List ℚ).Perm [3, 1, 2] ∧
      ([1, 2, 3] : List ℚ).Sorted (· ≤ ·)) ∧
    calculatePercentile ([3, 1, 2] : List ℚ) 95 =
      ([1, 2, 3] : List ℚ).getD
        (min (([3, 1, 2] : List ℚ).length - 1)
          (max 0 (⌈(95 : ℚ) / 100 * (([3, 1, 2] : List ℚ).length : ℚ)⌉ -
            1)).toNat) 0 ∧
    calculatePercentile ([3, 1, 2] : List ℚ) 95 ∈ ([3, 1, 2] : List ℚ) ∧
    calculatePercentile ([3, 1, 2] : List ℚ) 100 ∈ ([3, 1, 2] : List ℚ) ∧
    ∀ x ∈ ([3, 1, 2] : List ℚ), x ≤ calculatePercentile ([3, 1, 2] : List ℚ) 100 := by
  have h := calculatePercentile_spec [3, 1, 2] [1, 2, 3] 95 (by norm_num)
    (by norm_num) (by decide) (by decide)
  have hne : ([3, 1, 2] : List ℚ) ≠ [] := by simp
  exact ⟨⟨by norm_num, by norm_num, by decide, by decide⟩,
    (h.2.1 hne).1, (h.2.1 hne).2, (h.2.2 hne).1, (h.2.2 hne).2⟩

/-- C3 witness: the median facts at the odd-length list `[3,1,2]` and the
even-length list `[3,1,4,2]`. -/
theorem calculateMedian_spec_witness :
    (([1, 2, 3] : List ℚ).Perm [3, 1, 2] ∧
      ([1, 2, 3] : List ℚ).Sorted (· ≤ ·) ∧
      ([1, 2, 3, 4] : List ℚ).Perm [3, 1, 4, 2] ∧
      ([1, 2, 3, 4] : List ℚ).Sorted (· ≤ ·)) ∧
    calculateMedian ([] : List ℚ) = 0 ∧
    calculateMedian ([3, 1, 2] : List ℚ) =
      ([1, 2, 3] : List ℚ).getD (([3, 1, 2] : List ℚ).length / 2) 0 ∧
    calculateMedian ([3, 1, 4, 2] : List ℚ) =
      (([1, 2, 3, 4] : List ℚ).getD (([3, 1, 4, 2] : List ℚ).length / 2 - 1) 0 +
        ([1, 2, 3, 4] : List ℚ).getD (([3, 1, 4, 2] : List ℚ).length / 2) 0) / 2 := by
  have h1 := calculateMedian_spec [3, 1, 2] [1, 2, 3] (by decide) (by decide)
  have h2 := calculateMedian_spec [3, 1, 4, 2] [1, 2, 3, 4] (by decide) (by decide)
  exact ⟨⟨by decide, by decide, by decide, by decide⟩, h1.1,
    h1.2.1 (by decide), h2.2.2 (by decide) (by simp)⟩

/-! ## C7: report aggregation -/

/-- A left fold accumulating `+ f r` computes the sum of the mapped list. -/
theorem foldl_add_eq_sum {α M : Type} [AddCommMonoid M] (f : α → M) :
    ∀ (l : List α) (init : M),
      l.foldl (fun sum r => sum + f r) init = init + (l.map f).sum := by
  intro l
  induction l with
  | nil => intro init; simp
  | cons a t ih =>
    intro init
    rw [List.foldl_cons, ih, List.map_cons, List.sum_cons, add_assoc]

/-- `n > 0 ? x : 0` equals `n = 0 ? 0 : x`. -/
theorem ite_pos_eq_ite_zero (n : ℕ) (x : ℚ) :
    (if n > 0 then x else 0) = (if n = 0 then 0 else x) := by
  rcases Nat.eq_zero_or_pos n with h | h
  · simp [h]
  · simp [h, Nat.pos_iff_ne_zero.1 h]

/-- C7: `aggregateReports` filters out summary-less reports, sums
requests/time/failures over the remaining reports, derives the average and the
2-decimal failure rate with 0 fallbacks, maps a per-report rollup in input
order, and yields the defined `none` when nothing remains. -/
theorem aggregateReports_spec (reports : List AReport) :
    (reports.filter (fun r => r.summary.isSome) = [] →
      aggregateReports reports = none) ∧
    (reports.filter (fun r => r.summary.isSome) ≠ [] →
      ∃ a, aggregateReports reports = some a ∧
        a.reportCount = (reports.filter (fun r => r.summary.isSome)).length ∧
        a.totalRequests =
          ((reports.filter (fun r => r.summary.isSome)).map
            (fun r => (summaryOrZero r).totalRequests)).sum ∧
        a.totalTime =
          ((reports.filter (fun r => r.summary.isSome)).map
            (fun r => (summaryOrZero r).totalTime)).sum ∧
        a.totalFailedRequests =
          ((reports.filter (fun r => r.summary.isSome)).map
            (fun r => (summaryOrZero r).failedRequests)).sum ∧
        a.averageResponseTime =
          (if a.totalRequests = 0 then 0
            else a.totalTime / (a.totalRequests : ℚ)) ∧
        a.failureRate =
          (if a.totalRequests = 0 then 0
            else toFixed2
              ((a.totalFailedRequests : ℚ) / (a.totalRequests : ℚ) * 100)) ∧
        a.individual =
          (reports.filter (fun r => r.summary.isSome)).map
            (fun r =>
              ⟨r.testName, r.testDuration, (summaryOrZero r).totalRequests,
                (summaryOrZero r).averageResponseTime,
                (summaryOrZero r).failedRequests⟩)) := by
  constructor
  · intro h
    unfold aggregateReports
    simp [h]
  · intro hne
    have hlen : ¬(reports.filter (fun r => r.summary.isSome)).length = 0 := by
      simpa [List.length_eq_zero] using hne
    unfold aggregateReports
    simp only [if_neg hlen]
    refine ⟨_, rfl, rfl, ?_, ?_, ?_, ?_, ?_, rfl⟩
    · simpa using
        foldl_add_eq_sum (fun r => (summaryOrZero r).totalRequests)
          (reports.filter (fun r => r.summary.isSome)) 0
    · simpa using
        foldl_add_eq_sum (fun r => (summaryOrZero r).totalTime)
          (reports.filter (fun r => r.summary.isSome)) 0
    · simpa using
        foldl_add_eq_sum (fun r => (summaryOrZero r).failedRequests)
          (reports.filter (fun r => r.summary.isSome)) 0
    · exact ite_pos_eq_ite_zero _ _
    · exact ite_pos_eq_ite_zero _ _

/-- Aggregation witness data: two reports with summaries and one without. -/
def s1w : Summary := ⟨2, 10, 0, 1, 5, 0, 0, 0⟩

/-- Second summary for the aggregation witness. -/
def s2w : Summary := ⟨3, 20, 0, 0, 7, 0, 0, 0⟩

/-- Report with a summary. -/
def r1w : AReport := ⟨"t1".toList, 10, some s1w⟩

/-- Report lacking a summary (filtered out by aggregation). -/
def rBadw : AReport := ⟨"bad".toList, 5, none⟩

/-- Second report with a summary. -/
def r2w : AReport := ⟨"t2".toList, 4, some s2w⟩

/-- C7 witness: aggregation of `[r1w, rBadw, r2w]` and of the summary-less
singleton. -/
theorem aggregateReports_spec_witness :
    (([rBadw] : List AReport).filter (fun r => r.summary.isSome) = [] ∧
      aggregateReports [rBadw] = none) ∧
    (([r1w, rBadw, r2w] : List AReport).filter (fun r => r.summary.isSome) ≠
        [] ∧
      ∃ a, aggregateReports [r1w, rBadw, r2w] = some a ∧
        a.reportCount =
          (([r1w, rBadw, r2w] : List AReport).filter
            (fun r => r.summary.isSome)).length ∧
        a.totalRequests =
          ((([r1w, rBadw, r2w] : List AReport).filter
            (fun r => r.summary.isSome)).map
            (fun r => (summaryOrZero r).totalRequests)).sum ∧
        a.totalTime =
          ((([r1w, rBadw, r2w] : List AReport).filter
            (fun r => r.summary.isSome)).map
            (fun r => (summaryOrZero r).totalTime)).sum ∧
        a.totalFailedRequests =
          ((([r1w, rBadw, r2w] : List AReport).filter
            (fun r => r.summary.isSome)).map
            (fun r => (summaryOrZero r).failedRequests)).sum ∧
        a.averageResponseTime =
          (if a.totalRequests = 0 then 0
            else a.totalTime / (a.totalRequests : ℚ)) ∧
        a.failureRate =
          (if a.totalRequests = 0 then 0
            else toFixed2
              ((a.totalFailedRequests : ℚ) / (a.totalRequests : ℚ) * 100)) ∧
        a.individual =
          (([r1w, rBadw, r2w] : List AReport).filter
            (fun r => r.summary.isSome)).map
            (fun r =>
              ⟨r.testName, r.testDuration, (summaryOrZero r).totalRequests,
                (summaryOrZero r).averageResponseTime,
                (summaryOrZero r).failedRequests⟩)) :=
  ⟨⟨rfl, (aggregateReports_spec [rBadw]).1 rfl⟩,
   ⟨by decide, (aggregateReports_spec [r1w, rBadw, r2w]).2 (by decide)⟩⟩

/-! ## C8: API metrics totalCalls and endpoint-map skipping -/

/-- `totalCalls` counts exactly the entries satisfying the API predicate. -/
theorem getApiMetrics_totalCalls (pu : Str → Option Str)
    (entries : List HarEntry) :
    (getApiMetrics pu entries).totalCalls = entries.countP isApiCall := by
  unfold getApiMetrics
  rw [List.countP_eq_length_filter]
  by_cases h0 : entries.length = 0
  · have : entries = [] := List.length_eq_zero.1 h0
    subst this
    simp
  · simp only [if_neg h0]
    by_cases hA : (entries.filter isApiCall).length = 0
    · simp [hA]
    · simp [hA]

/-- `addCall` leaves the map unchanged on entries without an endpoint key. -/
theorem addCall_of_key_none (pu : Str → Option Str)
    (mp : Str → Option EndpointMetrics) (e : HarEntry)
    (h : endpointKey pu e = none) : addCall pu mp e = mp := by
  unfold addCall
  rw [h]

/-- The endpoint fold skips entries whose URL does not parse. -/
theorem foldl_addCall_filter (pu : Str → Option Str) :
    ∀ (l : List HarEntry) (mp : Str → Option EndpointMetrics),
      l.foldl (addCall pu) mp =
        (l.filter (fun e => (endpointKey pu e).isSome)).foldl (addCall pu) mp := by
  intro l
  induction l with
  | nil => intro mp; rfl
  | cons e t ih =>
    intro mp
    by_cases hk : (endpointKey pu e).isSome
    · rw [List.foldl_cons, List.filter_cons_of_pos (by simpa using hk),
        List.foldl_cons, ih]
    · have hnone : endpointKey pu e = none :=
        Option.not_isSome_iff_eq_none.1 hk
      rw [List.foldl_cons, addCall_of_key_none pu mp e hnone,
        List.filter_cons_of_neg (by simpa using hk), ih]

/-- Pointwise characterisation of the endpoint map: it is built from the
API-predicate entries whose endpoint key parses. -/
theorem getApiMetrics_endpoints_char (pu : Str → Option Str)
    (entries : List HarEntry) (k : Str) :
    (getApiMetrics pu entries).endpoints k =
      setEndpointAverages
        (((entries.filter isApiCall).filter
          (fun e => (endpointKey pu e).isSome)).foldl (addCall pu)
          (fun _ => none)) k := by
  unfold getApiMetrics
  by_cases h0 : entries.length = 0
  · have : entries = [] := List.length_eq_zero.1 h0
    subst this
    simp [setEndpointAverages]
  · simp only [if_neg h0]
    by_cases hA : (entries.filter isApiCall).length = 0
    · have : entries.filter isApiCall = [] := List.length_eq_zero.1 hA
      rw [this]
      simp [hA, setEndpointAverages]
    · simp only [if_neg hA]
      rw [foldl_addCall_filter]

/-- Filtering by the parse predicate first does not change the fold input. -/
theorem filter_parse_absorb (pu : Str → Option Str) (l : List HarEntry) :
    ((l.filter (fun e => (endpointKey pu e).isSome)).filter isApiCall).filter
      (fun e => (endpointKey pu e).isSome) =
    (l.filter isApiCall).filter (fun e => (endpointKey pu e).isSome) := by
  simp only [List.filter_filter]
  apply List.filter_congr
  intro a _
  cases isApiCall a <;> cases (endpointKey pu a).isSome <;> rfl

/-- C8: `totalCalls` equals the number of entries satisfying the API-call
predicate — independently of the URL parser, hence counting entries whose URL
cannot be parsed — while the endpoint map is built only from the qualifying
entries whose endpoint key parses (unparsable ones are skipped, never
fatal). -/
theorem getApiMetrics_spec (pu pv : Str → Option Str)
    (entries : List HarEntry) :
    (getApiMetrics pu entries).totalCalls = entries.countP isApiCall ∧
    (getApiMetrics pu entries).totalCalls =
      (getApiMetrics pv entries).totalCalls ∧
    ∀ k, (getApiMetrics pu entries).endpoints k =
      (getApiMetrics pu
        (entries.filter (fun e => (endpointKey pu e).isSome))).endpoints k := by
  refine ⟨getApiMetrics_totalCalls pu entries, ?_, ?_⟩
  · rw [getApiMetrics_totalCalls, getApiMetrics_totalCalls]
  · intro k
    rw [getApiMetrics_endpoints_char, getApiMetrics_endpoints_char,
      filter_parse_absorb]

/-! ## C9: endpoint metrics invariant -/

/-- Invariant maintained for every endpoint record during the fold. -/
def epInv (m : EndpointMetrics) : Prop :=
  0 < m.count ∧ 0 ≤ m.maxTime ∧ m.maxTime ≤ m.totalTime ∧ 0 ≤ m.totalTime ∧
    ∃ v, m.minTime = some v ∧ v ≤ m.maxTime

/-- Updating an endpoint record with a non-negative sample establishes or
preserves the invariant. -/
theorem epInv_update (cur : EndpointMetrics) (t : ℚ) (ht : 0 ≤ t)
    (hcur : cur = emptyEndpoint ∨ epInv cur) :
    epInv { count := cur.count + 1, totalTime := cur.totalTime + t,
            averageTime := cur.averageTime,
            minTime := some (match cur.minTime with
              | none => t
              | some v => min v t),
            maxTime := max cur.maxTime t } := by
  rcases hcur with rfl | ⟨hcount, hmax0, hmaxtot, htot0, v, hv, hvmax⟩
  · refine ⟨Nat.one_pos, le_max_left _ t, ?_, ?_, t, rfl, le_max_right _ t⟩
    · show max (0 : ℚ) t ≤ 0 + t
      simpa using max_le ht le_rfl
    · show (0 : ℚ) ≤ 0 + t
      simpa using ht
  · refine ⟨Nat.succ_pos _, le_trans hmax0 (le_max_left _ _), ?_, ?_,
      min v t, ?_, ?_⟩
    · exact max_le (le_trans hmaxtot (le_add_of_nonneg_right ht))
        (le_add_of_nonneg_left htot0)
    · exact add_nonneg htot0 ht
    · rw [hv]
    · exact le_trans (min_le_left v t)
        (le_trans hvmax (le_max_left _ _))

/-- One `addCall` step preserves the map-wide invariant when the sample time
is non-negative. -/
theorem addCall_epInv (pu : Str → Option Str)
    (mp : Str → Option EndpointMetrics) (e : HarEntry) (ht : 0 ≤ timeOf e)
    (hmp : ∀ k m, mp k = some m → epInv m) :
    ∀ k m, addCall pu mp e k = some m → epInv m := by
  intro k m hm
  unfold addCall at hm
  cases hkey : endpointKey pu e with
  | none =>
    rw [hkey] at hm
    exact hmp k m hm
  | some key =>
    rw [hkey] at hm
    dsimp only at hm
    by_cases hk : k = key
    · rw [if_pos hk] at hm
      have hrec := Option.some.inj hm
      subst hrec
      rcases hc : mp key with _ | c
      · exact epInv_update _ _ ht (Or.inl rfl)
      · exact epInv_update _ _ ht (Or.inr (hmp key c hc))
    · rw [if_neg hk] at hm
      exact hmp k m hm

/-- The whole endpoint fold preserves the invariant. -/
theorem foldl_addCall_epInv (pu : Str → Option Str) :
    ∀ (l : List HarEntry), (∀ e ∈ l, 0 ≤ timeOf e) →
      ∀ (mp : Str → Option EndpointMetrics),
        (∀ k m, mp k = some m → epInv m) →
        ∀ k m, (l.foldl (addCall pu) mp) k = some m → epInv m := by
  intro l
  induction l with
  | nil => intro _ mp hmp; exact hmp
  | cons e t ih =>
    intro hts mp hmp
    rw [List.foldl_cons]
    exact ih (fun x hx => hts x (List.mem_cons_of_mem e hx)) _
      (addCall_epInv pu mp e (hts e (List.mem_cons_self e t)) hmp)

/-- The averages pass changes only `averageTime`. -/
theorem setEndpointAverages_fields (mp : Str → Option EndpointMetrics)
    (k : Str) (m : EndpointMetrics) (hm : setEndpointAverages mp k = some m) :
    ∃ em, mp k = some em ∧ m.count = em.count ∧ m.minTime = em.minTime ∧
      m.maxTime = em.maxTime ∧ m.totalTime = em.totalTime := by
  unfold setEndpointAverages at hm
  obtain ⟨em, hem, hfem⟩ := Option.map_eq_some'.1 hm
  refine ⟨em, hem, ?_⟩
  rw [← hfem]
  split <;> simp

/-- C9: in any trace with non-negative elapsed times, every record of the
endpoint map has a positive count, a reached minimum (`minTime` left its `+∞`
initializer), and `minTime ≤ maxTime ≤ totalTime`. -/
theorem getApiMetrics_min_le_max_le_total (pu : Str → Option Str)
    (entries : List HarEntry) (ht : ∀ e ∈ entries, 0 ≤ timeOf e) :
    ∀ k m, (getApiMetrics pu entries).endpoints k = some m →
      0 < m.count ∧ m.maxTime ≤ m.totalTime ∧
        ∃ v, m.minTime = some v ∧ v ≤ m.maxTime := by
  intro k m hm
  rw [getApiMetrics_endpoints_char] at hm
  obtain ⟨em, hem, hcount, hmin, hmax, htot⟩ :=
    setEndpointAverages_fields _ k m hm
  have hinv : epInv em := by
    refine foldl_addCall_epInv pu _ ?_ _ ?_ k em hem
    · intro x hx
      exact ht x (List.mem_filter.1 (List.mem_filter.1 hx).1).1
    · intro k' m' h'
      exact Option.noConfusion h'
  obtain ⟨hc, _, hmt, _, v, hv, hvm⟩ := hinv
  exact ⟨by rw [hcount]; exact hc, by rw [hmax, htot]; exact hmt,
    v, by rw [hmin]; exact hv, by rw [hmax]; exact hvm⟩

/-- The identity URL parser, for the C9 witness. -/
def puId : Str → Option Str := fun s => some s

/-- A qualifying API entry with a 5 ms elapsed time. -/
def apiEntry : HarEntry :=
  ⟨some ⟨some "GET".toList, some "/api/users".toList⟩, none, some 5⟩

/-- C9 witness: the invariant at the one-call trace `[apiEntry]`. -/
theorem getApiMetrics_min_le_max_le_total_witness :
    (∀ e ∈ [apiEntry], 0 ≤ timeOf e) ∧
    (∀ k m, (getApiMetrics puId [apiEntry]).endpoints k = some m →
      0 < m.count ∧ m.maxTime ≤ m.totalTime ∧
        ∃ v, m.minTime = some v ∧ v ≤ m.maxTime) :=
  ⟨by decide, getApiMetrics_min_le_max_le_total puId [apiEntry] (by decide)⟩

/-! ## C10: largest-request ranking -/

/-- C10: `largestRequests` is at most 5 entries, drawn only from entries with
a present non-zero `bodySize`, in non-increasing size order; a trace in which
every `bodySize` is 0 or absent yields an empty ranking while all entries
still count in the summary and category totals. -/
theorem getLargestRequests_spec (entries : List HarEntry) :
    (getLargestRequests entries 5).length ≤ 5 ∧
    (∀ x ∈ getLargestRequests entries 5, ∃ e ∈ entries,
      bodyTruthy e = true ∧ x = ⟨urlOf e, bodySizeOf e, timeOf e⟩) ∧
    List.Pairwise (fun a b => b.size ≤ a.size)
      (getLargestRequests entries 5) ∧
    ((∀ e ∈ entries, bodyTruthy e = false) →
      getLargestRequests entries 5 = [] ∧
      (calculateSummary entries).totalRequests = entries.length ∧
      sumCounts (categorizeRequests entries) = entries.length) := by
  refine ⟨?_, ?_, ?_, ?_⟩
  · unfold getLargestRequests
    split
    · simp
    · simp [List.length_take]
  · unfold getLargestRequests
    split
    · simp
    · intro x hx
      obtain ⟨e, he, rfl⟩ := List.mem_map.1 hx
      have he2 : e ∈ List.insertionSort sizeGE (entries.filter bodyTruthy) :=
        List.mem_of_mem_take he
      have he3 : e ∈ entries.filter bodyTruthy :=
        (List.perm_insertionSort sizeGE (entries.filter bodyTruthy)).mem_iff.1
          he2
      obtain ⟨he4, hb⟩ := List.mem_filter.1 he3
      exact ⟨e, he4, hb, rfl⟩
  · unfold getLargestRequests
    split
    · simp
    · rw [List.pairwise_map]
      refine List.Pairwise.sublist (List.take_sublist _ _) ?_
      exact List.sorted_insertionSort sizeGE (entries.filter bodyTruthy)
  · intro hall
    have hfil : entries.filter bodyTruthy = [] :=
      List.filter_eq_nil_iff.2 (fun e he => by simp [hall e he])
    refine ⟨?_, calculateSummary_totalRequests entries,
      categorizeRequests_sumCounts entries⟩
    unfold getLargestRequests
    split
    · rfl
    · rw [hfil]
      rfl

/-- Entry with an explicit zero `bodySize`. -/
def zeroSizeEntry : HarEntry :=
  ⟨some ⟨some "GET".toList, some "https://h.test/a.js".toList⟩,
   some ⟨some 200, none, some 0, none⟩, some 100⟩

/-- Entry with no `bodySize` field at all. -/
def noSizeEntry : HarEntry :=
  ⟨some ⟨some "GET".toList, some "https://h.test/b.png".toList⟩,
   some ⟨some 404, none, none, none⟩, some 50⟩

/-- C10 witness: a non-empty trace whose `bodySize` values are 0 or absent
yields no largest requests while both entries still count. -/
theorem getLargestRequests_spec_witness :
    (∀ e ∈ [zeroSizeEntry, noSizeEntry], bodyTruthy e = false) ∧
    (getLargestRequests [zeroSizeEntry, noSizeEntry] 5 = [] ∧
      (calculateSummary [zeroSizeEntry, noSizeEntry]).totalRequests =
        ([zeroSizeEntry, noSizeEntry] : List HarEntry).length ∧
      sumCounts (categorizeRequests [zeroSizeEntry, noSizeEntry]) =
        ([zeroSizeEntry, noSizeEntry] : List HarEntry).length) :=
  ⟨by decide,
   (getLargestRequests_spec [zeroSizeEntry, noSizeEntry]).2.2.2 (by decide)⟩
